import Mathlib

/-!
Verification development for the arXiv knowledge-graph ingestion pipeline
(`script.py`): a shallow embedding of its string utilities, document
extractor, fact-extraction client, analysis-input selection, graph upsert
engine and startup sequence, with theorems settling the behavioural claims
about them.
-/

namespace KG

/-! ## Python string primitives -/

/-- Python whitespace test for the characters that can remain after the
ASCII filter: space (32) and the control characters 9–13
(tab, newline, vertical tab, form feed, carriage return). -/
def pyIsSpace (c : Char) : Bool :=
  c.toNat == 32 || (9 ≤ c.toNat && c.toNat ≤ 13)

/-- Characters kept by `text.encode('ascii', 'ignore')`: code points below 128. -/
def isAsciiChar (c : Char) : Bool := c.toNat < 128

/-- Python `str.split()` with no argument: split on runs of whitespace,
discarding empty pieces, so the result is the list of words. -/
def pySplit : List Char → List (List Char)
  | [] => []
  | c :: cs =>
    if pyIsSpace c then pySplit cs
    else
      match cs, pySplit cs with
      | [], _ => [[c]]
      | c' :: _, rest =>
        if pyIsSpace c' then [c] :: rest
        else
          match rest with
          | [] => [[c]]
          | w :: ws => (c :: w) :: ws

/-- Python `' '.join(words)`. -/
def joinWords : List (List Char) → List Char
  | [] => []
  | [w] => w
  | w :: w' :: ws => w ++ ' ' :: joinWords (w' :: ws)

/-- Number of whitespace-delimited words, i.e. Python `len(text.split())`. -/
def pyWordCount (s : String) : Nat := (pySplit s.data).length

/-! ## Text Sanitizer (`sanitize_text_for_llm`, src/script.py:76-90) -/

/-- Core of the sanitizer on character lists: drop non-ASCII characters
(`encode('ascii','ignore')`), then `' '.join(cleaned.split())`. -/
def sanitizeChars (l : List Char) : List Char :=
  joinWords (pySplit (l.filter isAsciiChar))

/-- The sanitizer `sanitize_text_for_llm`: the `if not text: return ""`
guard followed by the ASCII filter and whitespace normalisation. -/
def sanitize_text_for_llm (s : String) : String :=
  if s = "" then "" else String.mk (sanitizeChars s.data)

/-! ## Identifier derivation (`get_arxiv_id_from_pdf_filename`,
src/script.py:110-121) -/

/-- Python `s.split(sep)` for a one-character separator: split at every
occurrence, keeping empty pieces (`"vv".split('v') == ['', '', '']`,
`"".split('v') == ['']`). -/
def splitOnChar (sep : Char) : List Char → List (List Char)
  | [] => [[]]
  | c :: cs =>
    if c == sep then [] :: splitOnChar sep cs
    else
      match splitOnChar sep cs with
      | [] => [[c]]
      | w :: ws => (c :: w) :: ws

/-- Python `str.isdigit` as used on the version segment: nonempty and all
decimal digits.  (Python also accepts some further Unicode digit code
points; arXiv version segments are ASCII.) -/
def pyIsDigit (l : List Char) : Bool :=
  !l.isEmpty && l.all Char.isDigit

/-- The base name, Python `pdf_filename[:-4]`: everything except the last
four characters. -/
def stripPdfExt (l : List Char) : List Char := l.take (l.length - 4)

/-- Core of `get_arxiv_id_from_pdf_filename` on characters.  If the
filename ends in `.pdf`, the base name is the filename without the
extension; a version suffix is stripped only when the base name contains
exactly one `'v'` whose following segment is fully numeric.  If the
filename does not end in `.pdf`, the Python local `base_name` is never
assigned and the subsequent `'v' in base_name` raises `UnboundLocalError`;
that exception is modelled as `none`.  (The index-1 access into the split
is guarded by the `count == 1` test, which guarantees exactly two pieces.) -/
def getArxivIdChars (l : List Char) : Option (List Char) :=
  if ['.', 'p', 'd', 'f'].isSuffixOf l then
    if (stripPdfExt l).contains 'v' && ((stripPdfExt l).count 'v' == 1) &&
        pyIsDigit ((splitOnChar 'v' (stripPdfExt l)).getD 1 []) then
      some ((splitOnChar 'v' (stripPdfExt l)).getD 0 [])
    else
      some (stripPdfExt l)
  else
    none

/-- String-level wrapper for `get_arxiv_id_from_pdf_filename`. -/
def get_arxiv_id_from_pdf_filename (s : String) : Option String :=
  (getArxivIdChars s.data).map String.mk

/-! ## Document Extractor (`extract_text_from_pdf`, src/script.py:54-73) -/

/-- A PDF file as the extractor can observe it. -/
inductive PdfFile
  /-- A readable document; `fitz` yields the text of each page in order. -/
  | ok (pages : List String)
  /-- A file whose opening or page reading raises inside the `try`. -/
  | corrupt
deriving DecidableEq

/-- The file system as the extractor observes it: `none` when
`os.path.exists` is false for the path. -/
def FileSystem := String → Option PdfFile

/-- The extractor `extract_text_from_pdf`: `None` when the path does not
exist (early `return None`), otherwise the page texts concatenated in
order, or `""` when an exception is caught while opening/reading.  The
function is total: every exception is caught inside it. -/
def extract_text_from_pdf (fs : FileSystem) (pdf_path : String) : Option String :=
  match fs pdf_path with
  | none => none
  | some (PdfFile.ok pages) => some (String.join pages)
  | some PdfFile.corrupt => some ""

/-! ## Fact Extraction Client (`analyze_text_with_llm`, src/script.py:124-167) -/

/-- JSON-like values for the model's decoded output. -/
inductive JValue
  | str (s : String)
  | arr (elems : List JValue)
  | obj (fields : List (String × JValue))

/-- Lookup of a key in a JSON object's field list (first match). -/
def dictGet : List (String × JValue) → String → Option JValue
  | [], _ => none
  | (k', v) :: rest, k => if k' = k then some v else dictGet rest k

/-- Key lookup on a JSON value (`none` on non-objects or missing keys). -/
def jsonGet (v : JValue) (k : String) : Option JValue :=
  match v with
  | JValue.obj fields => dictGet fields k
  | _ => none

/-- Python `d.get(key, default)` on a decoded JSON object. -/
def pyJsonGetD (v : JValue) (k : String) (dflt : JValue) : JValue :=
  (jsonGet v k).getD dflt

/-- Outcome of the chat-completion call plus `json.loads`, as the client
observes it: a successfully decoded value, a response that is not valid
JSON (`json.JSONDecodeError`), or any other service failure (network,
auth, rate limit — the bare `except Exception`). -/
inductive LLMOutcome
  | parsed (v : JValue)
  | unparseable (raw : String)
  | serviceError

/-- The dictionary literal returned on both error paths of
`analyze_text_with_llm` (src/script.py:164 and 167).  Note that it has no
`"causal_relationships"` key. -/
def llmErrorResult : JValue :=
  JValue.obj [("equations", JValue.arr []), ("methodologies", JValue.arr []),
    ("technologies", JValue.arr [])]

/-- Truncation applied before the call (src/script.py:128-131): keep only
the first 6000 whitespace-delimited tokens. -/
def truncateForLlm (text : String) : String :=
  if pyWordCount text > 6000 then
    String.mk (joinWords ((pySplit text.data).take 6000))
  else text

/-- The client `analyze_text_with_llm`, with the service interaction
abstracted as an oracle on the (truncated) text: the decoded JSON on
success, and the three-key empty default on either error path.  The Lean
function is total: no exception escapes to the caller. -/
def analyze_text_with_llm (oracle : String → LLMOutcome) (text : String) : JValue :=
  match oracle (truncateForLlm text) with
  | LLMOutcome.parsed v => v
  | LLMOutcome.unparseable _ => llmErrorResult
  | LLMOutcome.serviceError => llmErrorResult

/-! ## Analysis-input selection (src/script.py:225 and 278-283) -/

/-- The summary field of the prepared paper:
`paper_meta.get('abstract', 'No Abstract Found')`, where `none` models a
metadata record without an `abstract` key. -/
def paperSummary (abstract : Option String) : String :=
  abstract.getD "No Abstract Found"

/-- Line 279: `full_text if full_text and len(full_text.split()) > 100
else paper['summary']`.  `full_text` is `None` (here `none`) exactly when
the extractor returned `None` for a missing path. -/
def text_for_llm_analysis (full_text : Option String) (summary : String) : String :=
  match full_text with
  | some t => if t ≠ "" ∧ pyWordCount t > 100 then t else summary
  | none => summary

/-- Line 281: the extraction client is called iff `text_for_llm_analysis`
is truthy, i.e. a nonempty string; otherwise the document is skipped with
a log line. -/
def llmAnalysisPerformed (full_text : Option String) (abstract : Option String) : Bool :=
  text_for_llm_analysis full_text (paperSummary abstract) != ""

/-! ## Graph store model (py2neo `Graph`, used at src/script.py:250-321) -/

/-- Node/relationship properties: names with optional string values
(`none` models a Python `None` value such as a missing DOI). -/
abbrev Props := List (String × Option String)

/-- A stored node, identified by its label and the value of its uniqueness
key (each label has exactly one key property: `arxiv_id`, `name`, `term`
or `description`), carrying its full property map. -/
structure GNode where
  label : String
  key : String
  props : Props
deriving DecidableEq

/-- A stored relationship edge: the type, the (label, key) identities of
its endpoints, and its properties (`why` on `CAUSES`). -/
structure GRel where
  startLabel : String
  startKey : String
  relType : String
  endLabel : String
  endKey : String
  props : Props
deriving DecidableEq

/-- The graph store: a set-like node list (kept duplicate-free per
(label, key) by `mergeNode`) and a multiset-like edge list. -/
structure GraphState where
  nodes : List GNode
  rels : List GRel
deriving DecidableEq

/-- py2neo `graph.merge(node, label, key)`: match on the primary label and
key value; on a match the local properties are pushed onto the matched
node, otherwise the node is created. -/
def mergeNode (label key : String) (props : Props) (g : GraphState) : GraphState :=
  if g.nodes.any (fun n => n.label == label && n.key == key) then
    { g with nodes := g.nodes.map (fun n =>
        if n.label == label && n.key == key then { n with props := props } else n) }
  else
    { g with nodes := g.nodes ++ [⟨label, key, props⟩] }

/-- py2neo `graph.create(Relationship(...))` on bound endpoints:
unconditional creation — always appends a new edge, even if an identical
one exists. -/
def createRel (r : GRel) (g : GraphState) : GraphState :=
  { g with rels := g.rels ++ [r] }

/-- One store operation issued by the upsert code. -/
inductive GraphOp
  | merge (label key : String) (props : Props)
  | create (r : GRel)
deriving DecidableEq

def applyOp (g : GraphState) : GraphOp → GraphState
  | GraphOp.merge label key props => mergeNode label key props g
  | GraphOp.create r => createRel r g

def applyOps (g : GraphState) (ops : List GraphOp) : GraphState :=
  ops.foldl applyOp g

/-! ## Graph Upsert Engine (src/script.py:221-321) -/

/-- One causal item of the model output, read with `.get('cause')`,
`.get('effect')`, `.get('why')` — each may be absent. -/
structure CausalItem where
  cause : Option String
  effect : Option String
  why : Option String
deriving DecidableEq

/-- The extraction result as the upsert code reads it, i.e. after
`extracted_data.get('equations', [])` etc. -/
structure Extraction where
  equations : List String
  methodologies : List String
  technologies : List String
  causal_relationships : List CausalItem
deriving DecidableEq

/-- The prepared `paper` dict (src/script.py:221-248): `authors` holds the
comma-split author names (affiliations are `None` and not stored on the
node), `categories` the whitespace-split category terms. -/
structure Paper where
  arxiv_id : String
  title : String
  summary : String
  published : Option String
  updated : Option String
  url : Option String
  doi : Option String
  journal_ref : Option String
  authors : List String
  categories : List String
  primary_category : Option String
deriving DecidableEq

/-- Python truthiness of an optional string (`None` and `""` are falsy). -/
def pyTruthy : Option String → Bool
  | none => false
  | some s => s != ""

/-- The property map of the `Paper` node (src/script.py:250-260). -/
def paperProps (p : Paper) : Props :=
  [("arxiv_id", some p.arxiv_id), ("title", some p.title),
   ("summary", some p.summary), ("published", p.published),
   ("updated", p.updated), ("url", p.url), ("doi", p.doi),
   ("journal_ref", p.journal_ref)]

/-- The sequence of store operations one call of the upsert section
(src/script.py:250-321) performs for a paper and its extraction result, in
source order: merge the paper node; per author merge + AUTHORED; per
category merge + HAS_CATEGORY; for a truthy primary category merge +
HAS_PRIMARY_CATEGORY; per equation/methodology/technology merge +
MENTIONS_*; per causal item with truthy cause and effect, merge both
endpoints, link the paper to each, and create the CAUSES edge carrying
`why` (incomplete items are skipped with a warning). -/
def upsertOps (p : Paper) (facts : Extraction) : List GraphOp :=
  [GraphOp.merge "Paper" p.arxiv_id (paperProps p)]
  ++ p.authors.flatMap (fun name =>
      [GraphOp.merge "Author" name [("name", some name)],
       GraphOp.create ⟨"Author", name, "AUTHORED", "Paper", p.arxiv_id, []⟩])
  ++ p.categories.flatMap (fun term =>
      [GraphOp.merge "Category" term [("term", some term)],
       GraphOp.create ⟨"Paper", p.arxiv_id, "HAS_CATEGORY", "Category", term, []⟩])
  ++ (if pyTruthy p.primary_category then
      [GraphOp.merge "Category" (p.primary_category.getD "")
         [("term", p.primary_category)],
       GraphOp.create ⟨"Paper", p.arxiv_id, "HAS_PRIMARY_CATEGORY", "Category",
         p.primary_category.getD "", []⟩]
    else [])
  ++ facts.equations.flatMap (fun eq_name =>
      [GraphOp.merge "Equation" eq_name [("name", some eq_name)],
       GraphOp.create ⟨"Paper", p.arxiv_id, "MENTIONS_EQUATION", "Equation",
         eq_name, []⟩])
  ++ facts.methodologies.flatMap (fun meth_name =>
      [GraphOp.merge "Methodology" meth_name [("name", some meth_name)],
       GraphOp.create ⟨"Paper", p.arxiv_id, "MENTIONS_METHODOLOGY", "Methodology",
         meth_name, []⟩])
  ++ facts.technologies.flatMap (fun tech_name =>
      [GraphOp.merge "Technology" tech_name [("name", some tech_name)],
       GraphOp.create ⟨"Paper", p.arxiv_id, "MENTIONS_TECHNOLOGY", "Technology",
         tech_name, []⟩])
  ++ facts.causal_relationships.flatMap (fun cr =>
      if pyTruthy cr.cause && pyTruthy cr.effect then
        [GraphOp.merge "Cause" (cr.cause.getD "") [("description", cr.cause)],
         GraphOp.merge "Effect" (cr.effect.getD "") [("description", cr.effect)],
         GraphOp.create ⟨"Paper", p.arxiv_id, "IDENTIFIES_CAUSE", "Cause",
           cr.cause.getD "", []⟩,
         GraphOp.create ⟨"Paper", p.arxiv_id, "IDENTIFIES_EFFECT", "Effect",
           cr.effect.getD "", []⟩,
         GraphOp.create ⟨"Cause", cr.cause.getD "", "CAUSES", "Effect",
           cr.effect.getD "", [("why", cr.why)]⟩]
      else [])

/-- The Graph Upsert Engine: apply one call's operations to the store. -/
def upsertPaper (p : Paper) (facts : Extraction) (g : GraphState) : GraphState :=
  applyOps g (upsertOps p facts)

/-- The (label, key) identities present in the store. -/
def keysOf (g : GraphState) : List (String × String) :=
  g.nodes.map (fun n => (n.label, n.key))

/-- Number of nodes carrying a given label. -/
def nodeCountByLabel (g : GraphState) (label : String) : Nat :=
  (g.nodes.filter (fun n => n.label == label)).length

/-- The (label, key) identities merged by a list of operations. -/
def mergedKeys (ops : List GraphOp) : List (String × String) :=
  ops.filterMap (fun op => match op with
    | GraphOp.merge l k _ => some (l, k)
    | GraphOp.create _ => none)

/-- The relationship edges created by a list of operations. -/
def createdRels (ops : List GraphOp) : List GRel :=
  ops.filterMap (fun op => match op with
    | GraphOp.merge _ _ _ => none
    | GraphOp.create r => some r)

/-- An example paper record (mirroring the end-to-end scenario of the
design document), used by concrete witnesses. -/
def examplePaper : Paper :=
  { arxiv_id := "2001.00001", title := "T", summary := "A causes B.",
    published := none, updated := none, url := none, doi := none,
    journal_ref := none, authors := ["Jane Doe"], categories := ["cs.AI"],
    primary_category := some "cs.AI" }

/-- An example extraction result with one causal relationship, used by
concrete witnesses. -/
def exampleFacts : Extraction :=
  { equations := [], methodologies := [], technologies := [],
    causal_relationships := [⟨some "A", some "B", some "mechanism"⟩] }

/-! ## Startup sequence (src/script.py:12-51 and 332-361) -/

/-- Externally visible startup steps, in the order the script can perform
them. -/
inductive StartupEvent
  /-- `graph = Graph(NEO4J_URI, auth=...)`: connect only. -/
  | connect
  /-- `graph.run("MATCH (n) DETACH DELETE n;")` (line 40): deletes every
  node and relationship in the store. -/
  | deleteAllData
  /-- The eight `CREATE CONSTRAINT IF NOT EXISTS` statements (lines 44-51):
  schema only, no node or relationship data touched. -/
  | createConstraints
  /-- The `__main__` check that the PDF directory exists and is nonempty
  (line 340). -/
  | checkPdfDir
  /-- The `__main__` check that the metadata file exists (line 345). -/
  | checkMetadataFile
  /-- Loading metadata and running
  `create_knowledge_graph_from_local_data` (lines 351-354). -/
  | ingest
deriving DecidableEq

/-- The environment facts the startup sequence branches on. -/
structure StartupConfig where
  /-- `OPENROUTER_API_KEY` is set (lines 16-18 raise `ValueError`
  otherwise, terminating the process with a non-zero exit). -/
  apiKeySet : Bool
  /-- `arxiv_dataset/pdf` exists and is nonempty (line 340). -/
  pdfDirOk : Bool
  /-- `arxiv_dataset/arxiv-metadata-oai-snapshot.json` exists (line 345). -/
  metadataOk : Bool
deriving DecidableEq

inductive ExitStatus
  /-- Normal termination. -/
  | success
  /-- Non-zero exit: the uncaught `ValueError` or `sys.exit(1)`. -/
  | failure
deriving DecidableEq

/-- The module-level and `__main__` control flow of `script.py`, in source
order: the API-key check aborts before the store is touched; the connect,
the unconditional full delete and the constraint creation run at import
time; the two dataset checks run afterwards in `__main__`; only then does
ingestion start. -/
def startupTrace (c : StartupConfig) : List StartupEvent × ExitStatus :=
  if c.apiKeySet = false then
    ([], ExitStatus.failure)
  else
    let moduleEvents := [StartupEvent.connect, StartupEvent.deleteAllData,
      StartupEvent.createConstraints]
    if c.pdfDirOk = false then
      (moduleEvents ++ [StartupEvent.checkPdfDir], ExitStatus.failure)
    else if c.metadataOk = false then
      (moduleEvents ++ [StartupEvent.checkPdfDir, StartupEvent.checkMetadataFile],
        ExitStatus.failure)
    else
      (moduleEvents ++ [StartupEvent.checkPdfDir, StartupEvent.checkMetadataFile,
        StartupEvent.ingest], ExitStatus.success)

/-- Whether a startup event creates, modifies or deletes node or
relationship data in the store. -/
def mutatesGraphData : StartupEvent → Bool
  | StartupEvent.deleteAllData => true
  | StartupEvent.ingest => true
  | _ => false

/-! # Theorems -/

/-! ## Sanitizer lemmas -/

theorem pySplit_cons_space {c : Char} {cs : List Char} (h : pyIsSpace c = true) :
    pySplit (c :: cs) = pySplit cs := by
  simp [pySplit, h]

theorem pySplit_singleton {c : Char} (h : pyIsSpace c = false) :
    pySplit [c] = [[c]] := by
  simp [pySplit, h]

theorem pySplit_cons2_space {c c' : Char} {cs : List Char}
    (h : pyIsSpace c = false) (h2 : pyIsSpace c' = true) :
    pySplit (c :: c' :: cs) = [c] :: pySplit (c' :: cs) := by
  simp [pySplit, h, h2]

theorem pySplit_cons2_word {c c' : Char} {cs : List Char}
    (h : pyIsSpace c = false) (h2 : pyIsSpace c' = false) :
    pySplit (c :: c' :: cs) =
      match pySplit (c' :: cs) with
      | [] => [[c]]
      | w :: ws => (c :: w) :: ws := by
  simp [pySplit, h, h2]

/-- Every word produced by `pySplit` is nonempty and whitespace-free,
and its characters come from the input. -/
theorem pySplit_sound :
    ∀ (l : List Char), ∀ w ∈ pySplit l,
      w ≠ [] ∧ (∀ c ∈ w, pyIsSpace c = false) ∧ (∀ c ∈ w, c ∈ l) := by
  intro l
  induction l with
  | nil => intro w hw; simp [pySplit] at hw
  | cons c cs ih =>
    intro w hw
    by_cases hsp : pyIsSpace c = true
    · rw [pySplit_cons_space hsp] at hw
      obtain ⟨hne, hns, hsub⟩ := ih w hw
      exact ⟨hne, hns, fun d hd => List.mem_cons_of_mem c (hsub d hd)⟩
    · have hsp' : pyIsSpace c = false := by
        rw [Bool.not_eq_true] at hsp; exact hsp
      cases cs with
      | nil =>
        rw [pySplit_singleton hsp'] at hw
        rcases List.mem_cons.mp hw with h | h
        · subst h
          refine ⟨by simp, ?_, ?_⟩
          · intro d hd
            rcases List.mem_cons.mp hd with h | h
            · subst h; exact hsp'
            · exact absurd h (List.not_mem_nil d)
          · intro d hd
            rcases List.mem_cons.mp hd with h | h
            · exact List.mem_cons.mpr (Or.inl h)
            · exact absurd h (List.not_mem_nil d)
        · exact absurd h (List.not_mem_nil w)
      | cons c' cs' =>
        by_cases hsp2 : pyIsSpace c' = true
        · rw [pySplit_cons2_space hsp' hsp2] at hw
          rcases List.mem_cons.mp hw with h | h
          · subst h
            refine ⟨by simp, ?_, ?_⟩
            · intro d hd
              rcases List.mem_cons.mp hd with h | h
              · subst h; exact hsp'
              · exact absurd h (List.not_mem_nil d)
            · intro d hd
              rcases List.mem_cons.mp hd with h | h
              · exact List.mem_cons.mpr (Or.inl h)
              · exact absurd h (List.not_mem_nil d)
          · obtain ⟨hne, hns, hsub⟩ := ih w h
            exact ⟨hne, hns, fun d hd => List.mem_cons_of_mem c (hsub d hd)⟩
        · have hsp2' : pyIsSpace c' = false := by
            rw [Bool.not_eq_true] at hsp2; exact hsp2
          rw [pySplit_cons2_word hsp' hsp2'] at hw
          rcases hrest : pySplit (c' :: cs') with _ | ⟨w0, ws0⟩
          · rw [hrest] at hw
            rcases List.mem_cons.mp hw with h | h
            · subst h
              refine ⟨by simp, ?_, ?_⟩
              · intro d hd
                rcases List.mem_cons.mp hd with h | h
                · subst h; exact hsp'
                · exact absurd h (List.not_mem_nil d)
              · intro d hd
                rcases List.mem_cons.mp hd with h | h
                · exact List.mem_cons.mpr (Or.inl h)
                · exact absurd h (List.not_mem_nil d)
            · exact absurd h (List.not_mem_nil w)
          · rw [hrest] at hw
            have h0 := ih w0 (by rw [hrest]; exact List.mem_cons_self w0 ws0)
            rcases List.mem_cons.mp hw with h | h
            · subst h
              refine ⟨by simp, ?_, ?_⟩
              · intro d hd
                rcases List.mem_cons.mp hd with h | h
                · subst h; exact hsp'
                · exact h0.2.1 d h
              · intro d hd
                rcases List.mem_cons.mp hd with h | h
                · exact List.mem_cons.mpr (Or.inl h)
                · exact List.mem_cons_of_mem c (h0.2.2 d h)
            · have hmem : w ∈ pySplit (c' :: cs') := by
                rw [hrest]; exact List.mem_cons_of_mem w0 h
              obtain ⟨hne, hns, hsub⟩ := ih w hmem
              exact ⟨hne, hns, fun d hd => List.mem_cons_of_mem c (hsub d hd)⟩

/-- Splitting a single nonempty whitespace-free word yields just that word. -/
theorem pySplit_word :
    ∀ (cs : List Char) (c : Char), pyIsSpace c = false →
      (∀ d ∈ cs, pyIsSpace d = false) →
      pySplit (c :: cs) = [c :: cs] := by
  intro cs
  induction cs with
  | nil =>
    intro c hc _
    exact pySplit_singleton hc
  | cons c' cs' ih =>
    intro c hc hcs
    have hc' : pyIsSpace c' = false := hcs c' (List.mem_cons_self c' cs')
    have hrest : pySplit (c' :: cs') = [c' :: cs'] :=
      ih c' hc' (fun d hd => hcs d (List.mem_cons_of_mem c' hd))
    rw [pySplit_cons2_word hc hc', hrest]

/-- Splitting a nonempty whitespace-free word followed by a space and a
remainder yields the word followed by the split of the remainder. -/
theorem pySplit_word_sep :
    ∀ (cs : List Char) (c : Char) (r : List Char), pyIsSpace c = false →
      (∀ d ∈ cs, pyIsSpace d = false) →
      pySplit (c :: cs ++ ' ' :: r) = (c :: cs) :: pySplit r := by
  intro cs
  induction cs with
  | nil =>
    intro c r hc _
    show pySplit (c :: ' ' :: r) = [c] :: pySplit r
    rw [pySplit_cons2_space hc (by decide), pySplit_cons_space (by decide)]
  | cons c' cs' ih =>
    intro c r hc hcs
    have hc' : pyIsSpace c' = false := hcs c' (List.mem_cons_self c' cs')
    have hrest : pySplit (c' :: cs' ++ ' ' :: r) = (c' :: cs') :: pySplit r :=
      ih c' r hc' (fun d hd => hcs d (List.mem_cons_of_mem c' hd))
    show pySplit (c :: c' :: (cs' ++ ' ' :: r)) = (c :: c' :: cs') :: pySplit r
    rw [pySplit_cons2_word hc hc']
    rw [show pySplit (c' :: (cs' ++ ' ' :: r)) = (c' :: cs') :: pySplit r from hrest]

/-- Splitting a join of nonempty whitespace-free words recovers the words. -/
theorem pySplit_joinWords :
    ∀ (ws : List (List Char)),
      (∀ w ∈ ws, w ≠ [] ∧ ∀ c ∈ w, pyIsSpace c = false) →
      pySplit (joinWords ws) = ws := by
  intro ws
  induction ws with
  | nil => intro _; rfl
  | cons w ws ih =>
    intro h
    obtain ⟨hne, hns⟩ := h w (List.mem_cons_self w ws)
    obtain ⟨c, cs, rfl⟩ := List.exists_cons_of_ne_nil hne
    have hc : pyIsSpace c = false := hns c (List.mem_cons_self c cs)
    have hcs : ∀ d ∈ cs, pyIsSpace d = false :=
      fun d hd => hns d (List.mem_cons_of_mem c hd)
    cases ws with
    | nil =>
      show pySplit (c :: cs) = [c :: cs]
      exact pySplit_word cs c hc hcs
    | cons w' ws' =>
      show pySplit ((c :: cs) ++ ' ' :: joinWords (w' :: ws')) = _
      rw [pySplit_word_sep cs c _ hc hcs,
        ih (fun u hu => h u (List.mem_cons_of_mem _ hu))]

/-- If every word consists of ASCII characters, the join passes the ASCII
filter unchanged (the separator space is ASCII). -/
theorem filter_ascii_joinWords :
    ∀ (ws : List (List Char)),
      (∀ w ∈ ws, ∀ c ∈ w, isAsciiChar c = true) →
      (joinWords ws).filter isAsciiChar = joinWords ws := by
  intro ws
  induction ws with
  | nil => intro _; rfl
  | cons w ws ih =>
    intro h
    cases ws with
    | nil =>
      show w.filter isAsciiChar = w
      exact List.filter_eq_self.mpr (h w (List.mem_cons_self w _))
    | cons w' ws' =>
      show (w ++ ' ' :: joinWords (w' :: ws')).filter isAsciiChar =
        w ++ ' ' :: joinWords (w' :: ws')
      rw [List.filter_append,
        List.filter_eq_self.mpr (h w (List.mem_cons_self w _)),
        List.filter_cons_of_pos (by decide),
        ih (fun u hu => h u (List.mem_cons_of_mem w hu))]

/-- Idempotence of the sanitizer core on character lists. -/
theorem sanitizeChars_idem (l : List Char) :
    sanitizeChars (sanitizeChars l) = sanitizeChars l := by
  have hsound := pySplit_sound (l.filter isAsciiChar)
  have hascii : ∀ w ∈ pySplit (l.filter isAsciiChar), ∀ c ∈ w,
      isAsciiChar c = true := by
    intro w hw c hc
    exact List.of_mem_filter ((hsound w hw).2.2 c hc)
  unfold sanitizeChars
  rw [filter_ascii_joinWords _ hascii]
  rw [pySplit_joinWords _ (fun w hw => ⟨(hsound w hw).1, (hsound w hw).2.1⟩)]

/-! ## Graph store lemmas -/

theorem anyKey_eq_true_iff (g : GraphState) (label key : String) :
    (g.nodes.any (fun n => n.label == label && n.key == key) = true) ↔
      (label, key) ∈ keysOf g := by
  simp [keysOf, List.any_eq_true, Prod.ext_iff]

theorem mergedKeys_nil : mergedKeys [] = [] := rfl

theorem mergedKeys_cons_merge (l k : String) (props : Props) (ops : List GraphOp) :
    mergedKeys (GraphOp.merge l k props :: ops) = (l, k) :: mergedKeys ops := by
  simp [mergedKeys]

theorem mergedKeys_cons_create (r : GRel) (ops : List GraphOp) :
    mergedKeys (GraphOp.create r :: ops) = mergedKeys ops := by
  simp [mergedKeys]

/-- Auxiliary: mapping a label-preserving function over the nodes does not
change the number of nodes with any given label. -/
theorem filter_label_length_map (f : GNode → GNode)
    (hf : ∀ n, (f n).label = n.label) (lab : String) :
    ∀ ns : List GNode,
      ((ns.map f).filter (fun n => n.label == lab)).length =
        (ns.filter (fun n => n.label == lab)).length := by
  intro ns
  induction ns with
  | nil => rfl
  | cons n ns ih =>
    rw [List.map_cons, List.filter_cons, List.filter_cons, hf n]
    by_cases hn : n.label = lab
    · rw [if_pos (by simp [hn]), if_pos (by simp [hn]),
        List.length_cons, List.length_cons, ih]
    · rw [if_neg (by simp [hn]), if_neg (by simp [hn]), ih]

theorem mergeNode_rels (label key : String) (props : Props) (g : GraphState) :
    (mergeNode label key props g).rels = g.rels := by
  unfold mergeNode
  split <;> rfl

theorem createRel_nodes (r : GRel) (g : GraphState) :
    (createRel r g).nodes = g.nodes := rfl

theorem mergeNode_keysOf_of_mem {label key : String} {g : GraphState}
    (props : Props) (h : (label, key) ∈ keysOf g) :
    keysOf (mergeNode label key props g) = keysOf g := by
  unfold mergeNode
  rw [if_pos ((anyKey_eq_true_iff g label key).mpr h)]
  show (g.nodes.map _).map _ = _
  rw [List.map_map]
  apply List.map_congr_left
  intro n _
  simp only [Function.comp_apply]
  split <;> rfl

theorem mergeNode_keysOf_of_not_mem {label key : String} {g : GraphState}
    (props : Props) (h : (label, key) ∉ keysOf g) :
    keysOf (mergeNode label key props g) = keysOf g ++ [(label, key)] := by
  unfold mergeNode
  rw [if_neg (by
    intro hc
    exact h ((anyKey_eq_true_iff g label key).mp hc))]
  simp [keysOf]

theorem mergeNode_count_of_mem {label key : String} {g : GraphState}
    (props : Props) (h : (label, key) ∈ keysOf g) (lab : String) :
    nodeCountByLabel (mergeNode label key props g) lab = nodeCountByLabel g lab := by
  unfold mergeNode
  rw [if_pos ((anyKey_eq_true_iff g label key).mpr h)]
  unfold nodeCountByLabel
  exact filter_label_length_map _ (fun n => by split <;> rfl) lab g.nodes

theorem mem_keysOf_mergeNode {k0 : String × String} {g : GraphState}
    (label key : String) (props : Props) (h : k0 ∈ keysOf g) :
    k0 ∈ keysOf (mergeNode label key props g) := by
  by_cases hm : (label, key) ∈ keysOf g
  · rw [mergeNode_keysOf_of_mem props hm]; exact h
  · rw [mergeNode_keysOf_of_not_mem props hm]
    exact List.mem_append_left _ h

theorem self_mem_keysOf_mergeNode (label key : String) (props : Props)
    (g : GraphState) : (label, key) ∈ keysOf (mergeNode label key props g) := by
  by_cases hm : (label, key) ∈ keysOf g
  · rw [mergeNode_keysOf_of_mem props hm]; exact hm
  · rw [mergeNode_keysOf_of_not_mem props hm]
    exact List.mem_append_right _ (List.mem_cons_self _ _)

theorem applyOps_cons (g : GraphState) (op : GraphOp) (ops : List GraphOp) :
    applyOps g (op :: ops) = applyOps (applyOp g op) ops := rfl

/-- Relationship creation is purely accumulative: applying an operation
list appends exactly its created edges to the edge list. -/
theorem applyOps_rels (ops : List GraphOp) :
    ∀ g : GraphState, (applyOps g ops).rels = g.rels ++ createdRels ops := by
  induction ops with
  | nil => intro g; simp [applyOps, createdRels]
  | cons op ops ih =>
    intro g
    rw [applyOps_cons]
    cases op with
    | merge label key props =>
      rw [ih]
      show (mergeNode label key props g).rels ++ _ = _
      rw [mergeNode_rels]
      simp [createdRels]
    | create r =>
      rw [ih]
      show (createRel r g).rels ++ _ = _
      unfold createRel
      simp [createdRels]

/-- Node identities are never removed by the engine's operations. -/
theorem mem_keysOf_applyOps (ops : List GraphOp) :
    ∀ (g : GraphState) (k0 : String × String),
      k0 ∈ keysOf g → k0 ∈ keysOf (applyOps g ops) := by
  induction ops with
  | nil => intro g k0 h; exact h
  | cons op ops ih =>
    intro g k0 h
    rw [applyOps_cons]
    cases op with
    | merge label key props =>
      exact ih _ k0 (mem_keysOf_mergeNode label key props h)
    | create r =>
      exact ih _ k0 h

/-- After applying an operation list, every merged identity is present. -/
theorem mergedKeys_mem_applyOps (ops : List GraphOp) :
    ∀ (g : GraphState) (k0 : String × String),
      k0 ∈ mergedKeys ops → k0 ∈ keysOf (applyOps g ops) := by
  induction ops with
  | nil => intro g k0 h; simp [mergedKeys] at h
  | cons op ops ih =>
    intro g k0 h
    rw [applyOps_cons]
    cases op with
    | merge label key props =>
      rw [mergedKeys_cons_merge] at h
      rcases List.mem_cons.mp h with h | h
      · subst h
        exact mem_keysOf_applyOps ops _ _
          (self_mem_keysOf_mergeNode label key props g)
      · exact ih _ k0 h
    | create r =>
      rw [mergedKeys_cons_create] at h
      exact ih _ k0 h

/-- If every identity an operation list merges is already present, the
operations change no per-label node count. -/
theorem applyOps_count_of_mem (ops : List GraphOp) :
    ∀ g : GraphState, (∀ k0 ∈ mergedKeys ops, k0 ∈ keysOf g) →
      ∀ lab : String, nodeCountByLabel (applyOps g ops) lab = nodeCountByLabel g lab := by
  induction ops with
  | nil => intro g _ lab; rfl
  | cons op ops ih =>
    intro g hmem lab
    rw [applyOps_cons]
    cases op with
    | merge label key props =>
      have hk : (label, key) ∈ keysOf g := by
        apply hmem
        rw [mergedKeys_cons_merge]
        exact List.mem_cons_self _ _
      have hkeys : keysOf (mergeNode label key props g) = keysOf g :=
        mergeNode_keysOf_of_mem props hk
      have htrans : ∀ k0 ∈ mergedKeys ops,
          k0 ∈ keysOf (applyOp g (GraphOp.merge label key props)) := by
        intro k0 h0
        show k0 ∈ keysOf (mergeNode label key props g)
        rw [hkeys]
        apply hmem
        rw [mergedKeys_cons_merge]
        exact List.mem_cons_of_mem _ h0
      rw [ih _ htrans lab]
      exact mergeNode_count_of_mem props hk lab
    | create r =>
      have htrans : ∀ k0 ∈ mergedKeys ops,
          k0 ∈ keysOf (applyOp g (GraphOp.create r)) := by
        intro k0 h0
        apply hmem
        rw [mergedKeys_cons_create]
        exact h0
      rw [ih _ htrans lab]
      rfl

/-! ## Claim theorems -/

/-- C1: running the Graph Upsert Engine twice with identical (paper, facts)
input does not increase the node count for any label: every node type
(Paper, Author, Category, Equation, Methodology, Technology, Cause,
Effect) is merged by its single uniqueness key, so the second run reuses
each existing node instead of creating a duplicate. -/
theorem upsert_engine_idempotent_node_counts
    (p : Paper) (facts : Extraction) (g : GraphState) (label : String) :
    nodeCountByLabel (upsertPaper p facts (upsertPaper p facts g)) label =
      nodeCountByLabel (upsertPaper p facts g) label :=
  applyOps_count_of_mem (upsertOps p facts) (upsertPaper p facts g)
    (fun k0 hk0 => mergedKeys_mem_applyOps (upsertOps p facts) g k0 hk0) label

/-- C2: relationship creation is unconditional, not upsert-semantics: each
engine call appends its full batch of edges (AUTHORED, HAS_CATEGORY,
HAS_PRIMARY_CATEGORY, MENTIONS_EQUATION, MENTIONS_METHODOLOGY,
MENTIONS_TECHNOLOGY, IDENTIFIES_CAUSE, IDENTIFIES_EFFECT, CAUSES) to the
store, so a second identical call appends the same batch again — every
edge of the batch occurs at least twice afterwards — while the per-label
node counts stay unchanged (endpoint nodes are deduplicated). -/
theorem relationship_creation_unconditional
    (p : Paper) (facts : Extraction) (g : GraphState) :
    (upsertPaper p facts g).rels = g.rels ++ createdRels (upsertOps p facts) ∧
    (upsertPaper p facts (upsertPaper p facts g)).rels =
      g.rels ++ createdRels (upsertOps p facts) ++ createdRels (upsertOps p facts) ∧
    (∀ r ∈ createdRels (upsertOps p facts),
      2 ≤ ((upsertPaper p facts (upsertPaper p facts g)).rels).count r) ∧
    (∀ label, nodeCountByLabel (upsertPaper p facts (upsertPaper p facts g)) label =
      nodeCountByLabel (upsertPaper p facts g) label) := by
  have h1 : (upsertPaper p facts g).rels = g.rels ++ createdRels (upsertOps p facts) :=
    applyOps_rels _ g
  have h2 : (upsertPaper p facts (upsertPaper p facts g)).rels =
      g.rels ++ createdRels (upsertOps p facts) ++ createdRels (upsertOps p facts) := by
    have h := applyOps_rels (upsertOps p facts) (upsertPaper p facts g)
    rw [h1] at h
    exact h
  refine ⟨h1, h2, ?_, ?_⟩
  · intro r hr
    rw [h2, List.count_append, List.count_append]
    have hpos : 0 < (createdRels (upsertOps p facts)).count r :=
      List.count_pos_iff.mpr hr
    omega
  · intro label
    exact applyOps_count_of_mem (upsertOps p facts) (upsertPaper p facts g)
      (fun k0 hk0 => mergedKeys_mem_applyOps (upsertOps p facts) g k0 hk0) label

/-- C2 witness: with the example paper and facts on an empty store, the
AUTHORED edge created by the first run occurs (at least) twice after the
second identical run. -/
theorem relationship_creation_unconditional_witness :
    2 ≤ ((upsertPaper examplePaper exampleFacts
        (upsertPaper examplePaper exampleFacts ⟨[], []⟩)).rels).count
      ⟨"Author", "Jane Doe", "AUTHORED", "Paper", "2001.00001", []⟩ :=
  (relationship_creation_unconditional examplePaper exampleFacts ⟨[], []⟩).2.2.1
    ⟨"Author", "Jane Doe", "AUTHORED", "Paper", "2001.00001", []⟩ (by decide)

/-- C3 counterexample: on a non-JSON-parseable model response, the
returned result has no "causal_relationships" key at all, so that field is
not an empty collection — it is absent. -/
theorem extraction_failsoft_counterexample :
    jsonGet (analyze_text_with_llm
        (fun _ => LLMOutcome.unparseable "I could not read the paper") "some text")
      "causal_relationships" = none ∧
    (none : Option JValue) ≠ some (JValue.arr []) := by
  constructor
  · rfl
  · intro h
    exact Option.noConfusion h

/-- C3 amended: on any error outcome (a response that is not decodable
JSON, or any other service failure) the client returns, without raising,
the fixed default object in which equations, methodologies and
technologies are empty collections, while causal_relationships is absent
from the result; downstream access via get-with-default therefore still
reads it as an empty collection. -/
theorem extraction_failsoft_amended
    (oracle : String → LLMOutcome) (text raw : String)
    (h : oracle (truncateForLlm text) = LLMOutcome.unparseable raw ∨
         oracle (truncateForLlm text) = LLMOutcome.serviceError) :
    analyze_text_with_llm oracle text = llmErrorResult ∧
    jsonGet (analyze_text_with_llm oracle text) "equations" = some (JValue.arr []) ∧
    jsonGet (analyze_text_with_llm oracle text) "methodologies" = some (JValue.arr []) ∧
    jsonGet (analyze_text_with_llm oracle text) "technologies" = some (JValue.arr []) ∧
    jsonGet (analyze_text_with_llm oracle text) "causal_relationships" = none ∧
    pyJsonGetD (analyze_text_with_llm oracle text) "causal_relationships"
      (JValue.arr []) = JValue.arr [] := by
  have hres : analyze_text_with_llm oracle text = llmErrorResult := by
    unfold analyze_text_with_llm
    rcases h with h | h <;> rw [h]
  rw [hres]
  exact ⟨rfl, rfl, rfl, rfl, rfl, rfl⟩

/-- C3 witness: a concrete service error degrades to the three-key empty
default. -/
theorem extraction_failsoft_amended_witness :
    analyze_text_with_llm (fun _ => LLMOutcome.serviceError) "x" = llmErrorResult :=
  (extraction_failsoft_amended (fun _ => LLMOutcome.serviceError) "x" "" (Or.inr rfl)).1

/-- C4 counterexample: with the API key set but the PDF directory missing,
the process does exit non-zero — but the full-graph delete, a mutation of
the store, has already executed before the dataset checks run. -/
theorem startup_checks_counterexample :
    (startupTrace ⟨true, false, true⟩).2 = ExitStatus.failure ∧
    StartupEvent.deleteAllData ∈ (startupTrace ⟨true, false, true⟩).1 ∧
    mutatesGraphData StartupEvent.deleteAllData = true := by
  decide

/-- C4 amended: a missing API key aborts non-zero before anything touches
the store; a missing dataset directory or metadata file also aborts
non-zero and prevents ingestion, but only after the module-level
full-graph delete has already mutated the store. -/
theorem startup_checks_amended (c : StartupConfig) :
    (c.apiKeySet = false →
      startupTrace c = ([], ExitStatus.failure) ∧
      ∀ e ∈ (startupTrace c).1, mutatesGraphData e = false) ∧
    (c.apiKeySet = true → (c.pdfDirOk = false ∨ c.metadataOk = false) →
      (startupTrace c).2 = ExitStatus.failure ∧
      StartupEvent.ingest ∉ (startupTrace c).1 ∧
      StartupEvent.deleteAllData ∈ (startupTrace c).1) := by
  rcases c with ⟨a, p, m⟩
  cases a <;> cases p <;> cases m <;> exact ⟨by decide, by decide⟩

/-- C4 witness: the amended statement at the configuration with a missing
PDF directory. -/
theorem startup_checks_amended_witness :
    (startupTrace ⟨true, false, true⟩).2 = ExitStatus.failure ∧
    StartupEvent.ingest ∉ (startupTrace ⟨true, false, true⟩).1 ∧
    StartupEvent.deleteAllData ∈ (startupTrace ⟨true, false, true⟩).1 :=
  (startup_checks_amended ⟨true, false, true⟩).2 rfl (Or.inl rfl)

/-- C5 counterexample: on a fully healthy run — and the environment has no
opt-in flag for it at all — the full-graph reset still executes: it is the
default, not an opt-in step. -/
theorem reset_opt_in_counterexample :
    StartupEvent.deleteAllData ∈ (startupTrace ⟨true, true, true⟩).1 ∧
    (startupTrace ⟨true, true, true⟩).2 = ExitStatus.success := by
  decide

/-- C5 amended: the full-graph reset runs unconditionally at module load
on every run that passes the API-key check (there is no opt-in
configuration), and apart from that reset the core deletes nothing: the
upsert engine never removes a node identity and only appends
relationships. -/
theorem reset_unconditional_and_core_deletes_nothing :
    (∀ c : StartupConfig, c.apiKeySet = true →
      StartupEvent.deleteAllData ∈ (startupTrace c).1) ∧
    (∀ (p : Paper) (facts : Extraction) (g : GraphState),
      (∀ k0 ∈ keysOf g, k0 ∈ keysOf (upsertPaper p facts g)) ∧
      (upsertPaper p facts g).rels = g.rels ++ createdRels (upsertOps p facts)) := by
  constructor
  · rintro ⟨a, pd, m⟩ ha
    subst ha
    cases pd <;> cases m <;> decide
  · intro p facts g
    exact ⟨fun k0 hk0 => mem_keysOf_applyOps _ g k0 hk0, applyOps_rels _ g⟩

/-- C5 witness: the reset event occurs on a concrete healthy run, and the
engine on the example input only appends to a concrete store's edges. -/
theorem reset_unconditional_witness :
    StartupEvent.deleteAllData ∈ (startupTrace ⟨true, true, false⟩).1 ∧
    ("Paper", "0704.0001") ∈ keysOf (upsertPaper examplePaper exampleFacts
      ⟨[⟨"Paper", "0704.0001", []⟩], []⟩) :=
  ⟨reset_unconditional_and_core_deletes_nothing.1 ⟨true, true, false⟩ rfl,
   (reset_unconditional_and_core_deletes_nothing.2 examplePaper exampleFacts
      ⟨[⟨"Paper", "0704.0001", []⟩], []⟩).1 ("Paper", "0704.0001") (by decide)⟩

/-- C6 counterexample: with short extracted text and a metadata record
that has no abstract key, the document is not skipped: the `.get` default
placeholder "No Abstract Found" is selected as analysis input and the
extraction client is called. -/
theorem analysis_input_counterexample :
    pyWordCount "short text" ≤ 100 ∧
    text_for_llm_analysis (some "short text") (paperSummary none) =
      "No Abstract Found" ∧
    llmAnalysisPerformed (some "short text") none = true := by
  decide

/-- C6 amended: extracted full text with more than 100 whitespace-delimited
words is selected; otherwise the summary is selected, which is the
metadata abstract when that key is present — so a present nonempty
abstract is selected, a present empty abstract leads to a skip (the client
is not called), and an absent abstract key yields the placeholder
"No Abstract Found" as analysis input with the client called. -/
theorem analysis_input_selection_amended
    (full_text : Option String) (abstract : Option String) :
    (∀ t, full_text = some t → pyWordCount t > 100 →
      text_for_llm_analysis full_text (paperSummary abstract) = t ∧
      llmAnalysisPerformed full_text abstract = true) ∧
    ((full_text.getD "" = "" ∨ pyWordCount (full_text.getD "") ≤ 100) →
      (∀ a, abstract = some a →
        text_for_llm_analysis full_text (paperSummary abstract) = a) ∧
      (abstract = some "" → llmAnalysisPerformed full_text abstract = false) ∧
      ((∃ a, abstract = some a ∧ a ≠ "") →
        llmAnalysisPerformed full_text abstract = true) ∧
      (abstract = none →
        text_for_llm_analysis full_text (paperSummary abstract) =
          "No Abstract Found" ∧
        llmAnalysisPerformed full_text abstract = true)) := by
  constructor
  · rintro t rfl hcnt
    have hne : t ≠ "" := by
      intro ht
      rw [ht] at hcnt
      exact absurd hcnt (by decide)
    have hsel : text_for_llm_analysis (some t) (paperSummary abstract) = t := by
      show (if t ≠ "" ∧ pyWordCount t > 100 then t else _) = t
      rw [if_pos ⟨hne, hcnt⟩]
    refine ⟨hsel, ?_⟩
    unfold llmAnalysisPerformed
    rw [hsel]
    simpa using hne
  · intro hlow
    have hsel : text_for_llm_analysis full_text (paperSummary abstract) =
        paperSummary abstract := by
      rcases full_text with _ | t
      · rfl
      · show (if t ≠ "" ∧ pyWordCount t > 100 then t else _) = _
        rcases hlow with h | h
        · have ht : t = "" := h
          rw [if_neg]
          rintro ⟨h1, _⟩
          exact h1 ht
        · have ht : pyWordCount t ≤ 100 := h
          rw [if_neg]
          rintro ⟨_, h2⟩
          omega
    refine ⟨?_, ?_, ?_, ?_⟩
    · rintro a rfl
      rw [hsel]
      rfl
    · rintro rfl
      unfold llmAnalysisPerformed
      rw [hsel]
      rfl
    · rintro ⟨a, rfl, hne⟩
      unfold llmAnalysisPerformed
      rw [hsel]
      simpa [paperSummary] using hne
    · rintro rfl
      refine ⟨by rw [hsel]; rfl, ?_⟩
      unfold llmAnalysisPerformed
      rw [hsel]
      decide

/-- C6 witness: short full text with a present nonempty abstract selects
the abstract. -/
theorem analysis_input_selection_amended_witness :
    text_for_llm_analysis (some "tiny") (paperSummary (some "An abstract.")) =
      "An abstract." :=
  (((analysis_input_selection_amended (some "tiny") (some "An abstract.")).2
    (by decide)).1) "An abstract." rfl

/-- C7: identifier derivation: "1701.00001.pdf" maps to "1701.00001",
"1701.00001v2.pdf" maps to "1701.00001", and for every filename ending in
".pdf" whose base name (extension stripped) has two or more v characters,
or whose segment after the v is not fully numeric, the result is the base
name with no version suffix removed. -/
theorem arxiv_id_derivation :
    get_arxiv_id_from_pdf_filename "1701.00001.pdf" = some "1701.00001" ∧
    get_arxiv_id_from_pdf_filename "1701.00001v2.pdf" = some "1701.00001" ∧
    ∀ s : String, ['.', 'p', 'd', 'f'].isSuffixOf s.data = true →
      (2 ≤ (stripPdfExt s.data).count 'v' ∨
        ((stripPdfExt s.data).count 'v' = 1 ∧
          pyIsDigit ((splitOnChar 'v' (stripPdfExt s.data)).getD 1 []) = false)) →
      get_arxiv_id_from_pdf_filename s = some (String.mk (stripPdfExt s.data)) := by
  refine ⟨by decide, by decide, ?_⟩
  intro s hsuf hbr
  unfold get_arxiv_id_from_pdf_filename getArxivIdChars
  rw [if_pos hsuf]
  have hguard : ((stripPdfExt s.data).contains 'v' &&
      ((stripPdfExt s.data).count 'v' == 1) &&
      pyIsDigit ((splitOnChar 'v' (stripPdfExt s.data)).getD 1 [])) = false := by
    rcases hbr with h | ⟨h1, h2⟩
    · have hc : ((stripPdfExt s.data).count 'v' == 1) = false := by
        simp only [beq_eq_false_iff_ne]
        omega
      simp [hc]
    · simp only [Bool.and_eq_false_iff]
      right
      exact h2
  rw [if_neg (by rw [hguard]; decide)]
  rfl

/-- C7 witness: a base name with two v characters is returned unsplit. -/
theorem arxiv_id_derivation_witness :
    get_arxiv_id_from_pdf_filename "1701.00001vv2.pdf" =
      some (String.mk (stripPdfExt "1701.00001vv2.pdf".data)) :=
  arxiv_id_derivation.2.2 "1701.00001vv2.pdf" (by decide) (Or.inl (by decide))

/-- C8: the Text Sanitizer is idempotent: for every input string,
sanitizing already-sanitized text is a no-op. -/
theorem sanitize_text_for_llm_idempotent (s : String) :
    sanitize_text_for_llm (sanitize_text_for_llm s) = sanitize_text_for_llm s := by
  unfold sanitize_text_for_llm
  by_cases hs : s = ""
  · simp [hs]
  · rw [if_neg hs]
    by_cases h2 : String.mk (sanitizeChars s.data) = ""
    · rw [if_pos h2, h2]
    · rw [if_neg h2]
      show String.mk (sanitizeChars (sanitizeChars s.data)) = _
      rw [sanitizeChars_idem]

/-- C9 counterexample: for a path that does not exist, the extractor
returns None (modelled `none`), not the empty string. -/
theorem extractor_missing_file_counterexample :
    extract_text_from_pdf (fun _ => none) "arxiv_dataset/pdf/0704.0001.pdf" = none ∧
    (none : Option String) ≠ some "" := by
  exact ⟨rfl, by simp⟩

/-- C9 amended: the extractor is total — every exception is caught inside
it — and returns the concatenated page text on success, the empty string
for an unreadable/corrupt file, and None (a distinct sentinel, not the
empty string) when the file does not exist. -/
theorem extractor_failsoft_amended (fs : FileSystem) (p : String) :
    (fs p = none → extract_text_from_pdf fs p = none) ∧
    (∀ pages, fs p = some (PdfFile.ok pages) →
      extract_text_from_pdf fs p = some (String.join pages)) ∧
    (fs p = some PdfFile.corrupt → extract_text_from_pdf fs p = some "") := by
  refine ⟨?_, ?_, ?_⟩
  · intro h
    unfold extract_text_from_pdf
    rw [h]
  · intro pages h
    unfold extract_text_from_pdf
    rw [h]
  · intro h
    unfold extract_text_from_pdf
    rw [h]

/-- C9 witness: a concrete corrupt file yields the empty string. -/
theorem extractor_failsoft_amended_witness :
    extract_text_from_pdf (fun _ => some PdfFile.corrupt) "broken.pdf" = some "" :=
  (extractor_failsoft_amended (fun _ => some PdfFile.corrupt) "broken.pdf").2.2 rfl

/-- C10: for every filename that does not end in ".pdf" the
identifier-derivation function raises (UnboundLocalError on the
never-assigned base_name local), modelled as `none`; it returns an
identifier exactly on ".pdf"-suffixed inputs. -/
theorem arxiv_id_non_pdf_raises (s : String) :
    (['.', 'p', 'd', 'f'].isSuffixOf s.data = false →
      get_arxiv_id_from_pdf_filename s = none) ∧
    (['.', 'p', 'd', 'f'].isSuffixOf s.data = true →
      (get_arxiv_id_from_pdf_filename s).isSome = true) := by
  constructor
  · intro h
    unfold get_arxiv_id_from_pdf_filename getArxivIdChars
    rw [if_neg (by simp [h])]
    rfl
  · intro h
    unfold get_arxiv_id_from_pdf_filename getArxivIdChars
    rw [if_pos h]
    split <;> rfl

/-- C10 witness: a concrete non-PDF filename yields the error result, and
a concrete PDF filename yields an identifier. -/
theorem arxiv_id_non_pdf_raises_witness :
    get_arxiv_id_from_pdf_filename "README.txt" = none :=
  (arxiv_id_non_pdf_raises "README.txt").1 (by decide)

end KG
